import Mathlib

/-!
Verification of the multi-chain account/asset/signature abstraction layer
(`pallets/cash/src/chains.rs`).

Rust strings are modelled as `List Char` (Lean `Char` is a Unicode scalar
value, exactly Rust's `char`); `str::len()` is the UTF-8 byte length, and
byte-indexed slicing panics when an index is not a character boundary,
exactly as in Rust.  Fixed-width byte arrays (`[u8; 20]`, `[u8; 32]`,
`[u8; 65]`) are modelled as `List Nat` with explicit length/bound
hypotheses where they matter.  A fallible Rust function returning
`Result<T, Reason>` that may additionally panic is modelled by `Outcome T`,
which distinguishes `ok`, a typed `err : Reason`, and `panicked`.

External collaborators (the keccak hasher from `tiny_keccak`, the
key-management and signing interfaces from `runtime_interfaces`, and the
ECDSA recovery primitive from `compound_crypto`) are injected through an
explicit `Env` record, following the module's own dependency boundary.
-/

/-- Modelled from the spec: the error taxonomy of §7 (`reason.rs` is outside
the sources; `chains.rs` constructs `BadAddress`, `BadAsset`, `BadChainId`,
`KeyNotFound` and `SignatureAccountMismatch` and propagates recovery errors). -/
inductive Reason where
  | BadAddress
  | BadAsset
  | BadChainId
  | KeyNotFound
  | SignatureRecoveryError
  | SignatureAccountMismatch
  | UnsupportedChain
  | UnsupportedOperation
deriving DecidableEq, Repr

/-- Result of running a Rust function that returns `Result<Turn, Reason>` and can
also panic: `ok` models `Ok`, `err` models `Err(reason)`, `panicked` models a
`panic!` unwinding out of the call (process abort in the runtime). -/
inductive Outcome (T : Type) where
  | ok : T → Outcome T
  | err : Reason → Outcome T
  | panicked : String → Outcome T
deriving DecidableEq, Repr

/-- The `?` operator on `Result`: propagate `Err` and panics, feed `Ok` on. -/
def Outcome.bind {T U : Type} : Outcome T → (T → Outcome U) → Outcome U
  | .ok a, f => f a
  | .err r, _ => .err r
  | .panicked m, _ => .panicked m

/-- The panic message used by every unimplemented arm in `chains.rs`. -/
def notImplMsg : String := "XXX not implemented"

/-- `enum ChainId { Comp, Eth, Dot, Sol, Tez }`. -/
inductive ChainId where
  | Comp
  | Eth
  | Dot
  | Sol
  | Tez
deriving DecidableEq, Repr

/-- `enum ChainAccount`: one variant per chain carrying that chain's
address payload (every chain uses the default `[u8; 20]` address type). -/
inductive ChainAccount where
  | Comp : List Nat → ChainAccount
  | Eth : List Nat → ChainAccount
  | Dot : List Nat → ChainAccount
  | Sol : List Nat → ChainAccount
  | Tez : List Nat → ChainAccount
deriving DecidableEq, Repr

/-- `enum ChainAsset`: same shape as `ChainAccount`. -/
inductive ChainAsset where
  | Comp : List Nat → ChainAsset
  | Eth : List Nat → ChainAsset
  | Dot : List Nat → ChainAsset
  | Sol : List Nat → ChainAsset
  | Tez : List Nat → ChainAsset
deriving DecidableEq, Repr

/-- `enum ChainHash`: one 32-byte hash payload per chain. -/
inductive ChainHash where
  | Comp : List Nat → ChainHash
  | Eth : List Nat → ChainHash
  | Dot : List Nat → ChainHash
  | Sol : List Nat → ChainHash
  | Tez : List Nat → ChainHash
deriving DecidableEq, Repr

/-- `enum ChainSignature`: one 65-byte signature payload per chain. -/
inductive ChainSignature where
  | Comp : List Nat → ChainSignature
  | Eth : List Nat → ChainSignature
  | Dot : List Nat → ChainSignature
  | Sol : List Nat → ChainSignature
  | Tez : List Nat → ChainSignature
deriving DecidableEq, Repr

/-- `enum ChainAccountSignature`: a claimed address paired with a signature. -/
inductive ChainAccountSignature where
  | Comp : List Nat → List Nat → ChainAccountSignature
  | Eth : List Nat → List Nat → ChainAccountSignature
  | Dot : List Nat → List Nat → ChainAccountSignature
  | Sol : List Nat → List Nat → ChainAccountSignature
  | Tez : List Nat → List Nat → ChainAccountSignature
deriving DecidableEq, Repr

/-- The discriminant of a `ChainAccount` value (the meta-level projection of
the constructor tag, total by construction; the code's partial `chain_id`
method is embedded separately below). -/
def ChainAccount.tag : ChainAccount → ChainId
  | .Comp _ => .Comp
  | .Eth _ => .Eth
  | .Dot _ => .Dot
  | .Sol _ => .Sol
  | .Tez _ => .Tez

/-- The discriminant of a `ChainAsset` value. -/
def ChainAsset.tag : ChainAsset → ChainId
  | .Comp _ => .Comp
  | .Eth _ => .Eth
  | .Dot _ => .Dot
  | .Sol _ => .Sol
  | .Tez _ => .Tez

/-- The discriminant of a `ChainHash` value. -/
def ChainHash.tag : ChainHash → ChainId
  | .Comp _ => .Comp
  | .Eth _ => .Eth
  | .Dot _ => .Dot
  | .Sol _ => .Sol
  | .Tez _ => .Tez

/-- The discriminant of a `ChainSignature` value. -/
def ChainSignature.tag : ChainSignature → ChainId
  | .Comp _ => .Comp
  | .Eth _ => .Eth
  | .Dot _ => .Dot
  | .Sol _ => .Sol
  | .Tez _ => .Tez

/-- External collaborators of `chains.rs`, injected as in the spec's
interface boundary (§6): the keccak-256 primitive used by
`Ethereum::hash_bytes`, the validator key-id lookup and keyring operations
used by `sign_message`/`signer_address`, the public-key-to-address
derivation from `compound_crypto`, and the `eth_recover` ECDSA recovery
primitive (message, 65-byte signature, hash-convention flag). -/
structure Env where
  keccak256 : List Nat → List Nat
  getEthKeyId : Option Nat
  signOne : List Nat → Nat → Except Reason (List Nat)
  getPublicKey : Nat → Except Reason (List Nat)
  publicKeyToEthAddress : List Nat → List Nat
  ethRecover : List Nat → List Nat → Bool → Except Reason (List Nat)

/- ### Rust string primitives -/

/-- UTF-8 size in bytes of one scalar value, as in Rust's `char::len_utf8`. -/
def rsize (c : Char) : Nat :=
  if c.toNat < 128 then 1
  else if c.toNat < 2048 then 2
  else if c.toNat < 65536 then 3
  else 4

/-- `str::len()`: the UTF-8 byte length of the string. -/
def utf8Len (s : List Char) : Nat := (s.map rsize).sum

/-- Take the characters covering exactly the first `n` UTF-8 bytes;
`none` when `n` falls strictly inside a character (the condition under
which Rust's `&s[0..n]` panics) or past the end of the string. -/
def sliceTo : Nat → List Char → Option (List Char)
  | 0, _ => some []
  | _ + 1, [] => none
  | n + 1, c :: cs =>
    if rsize c ≤ n + 1 then (sliceTo (n + 1 - rsize c) cs).map (c :: ·) else none

/-- `str::split_once(sep)`: split at the first occurrence of `sep`,
returning the parts before and after it, or `none` when absent. -/
def splitOnce (sep : Char) : List Char → Option (List Char × List Char)
  | [] => none
  | c :: cs =>
    if c = sep then some ([], cs)
    else (splitOnce sep cs).map (fun p => (c :: p.1, p.2))

/-- `u8::to_ascii_uppercase` on one character: map `a`-`z` to `A`-`Z`,
leave everything else alone. -/
def asciiUpper (c : Char) : Char :=
  if 97 ≤ c.toNat ∧ c.toNat ≤ 122 then Char.ofNat (c.toNat - 32) else c

/- ### Hex codec (the `hex` crate as used here) -/

/-- Value of one hex digit (`0`-`9`, `a`-`f`, `A`-`F`), `none` otherwise. -/
def hexDigitVal (c : Char) : Option Nat :=
  if 48 ≤ c.toNat ∧ c.toNat ≤ 57 then some (c.toNat - 48)
  else if 97 ≤ c.toNat ∧ c.toNat ≤ 102 then some (c.toNat - 87)
  else if 65 ≤ c.toNat ∧ c.toNat ≤ 70 then some (c.toNat - 55)
  else none

/-- `hex::decode`: pairs of hex digits to bytes; fails on odd length or a
non-hex character. -/
def hexDecode : List Char → Option (List Nat)
  | [] => some []
  | [_] => none
  | c1 :: c2 :: rest =>
    match hexDigitVal c1, hexDigitVal c2, hexDecode rest with
    | some hi, some lo, some bs => some ((16 * hi + lo) :: bs)
    | _, _, _ => none

/-- One lowercase hex digit for a value below 16. -/
def hexChar (n : Nat) : Char :=
  if n < 10 then Char.ofNat (48 + n) else Char.ofNat (87 + n)

/-- `hex::encode`: each byte becomes two lowercase hex digits. -/
def hexEncode : List Nat → List Char
  | [] => []
  | b :: bs => hexChar (b / 16) :: hexChar (b % 16) :: hexEncode bs

/- ### Per-chain `Chain` implementations -/

namespace Ethereum

/-- `<Ethereum as Chain>::zero_hash`: the all-zero 32-byte hash. -/
def zero_hash : List Nat := List.replicate 32 0

/-- `<Ethereum as Chain>::hash_bytes`: keccak-256 of the input, via the
injected primitive. -/
def hash_bytes (env : Env) (data : List Nat) : List Nat := env.keccak256 data

/-- `<Ethereum as Chain>::to_address`: accept exactly 42 bytes beginning
with `0x` whose remaining 40 bytes hex-decode to 20 bytes; everything
else is `BadAddress`.  The source first checks `addr.len() == 42` and then
compares the byte slice `&addr[0..2]` against `"0x"`, which panics when
byte index 2 is not a character boundary. -/
def to_address (addr : List Char) : Outcome (List Nat) :=
  if utf8Len addr = 42 then
    match sliceTo 2 addr with
    | none => .panicked "byte index 2 is not a char boundary"
    | some pre =>
      if pre = ['0', 'x'] then
        match hexDecode (addr.drop 2) with
        | some bytes => if bytes.length = 20 then .ok bytes else .err .BadAddress
        | none => .err .BadAddress
      else .err .BadAddress
  else .err .BadAddress

/-- `<Ethereum as Chain>::recover_address`: delegate to
`compound_crypto::eth_recover(data, &signature, true)`. -/
def recover_address (env : Env) (data : List Nat) (signature : List Nat) :
    Outcome (List Nat) :=
  match env.ethRecover data signature true with
  | .ok a => .ok a
  | .error r => .err r

/-- `<Ethereum as Chain>::sign_message`: look up the validator's eth key id
(`KeyNotFound` when absent) and ask the keyring to sign. -/
def sign_message (env : Env) (message : List Nat) : Outcome (List Nat) :=
  match env.getEthKeyId with
  | none => .err .KeyNotFound
  | some keyId =>
    match env.signOne message keyId with
    | .ok sig => .ok sig
    | .error r => .err r

/-- `<Ethereum as Chain>::signer_address`: look up the key id, fetch the
public key, derive the address from it. -/
def signer_address (env : Env) : Outcome (List Nat) :=
  match env.getEthKeyId with
  | none => .err .KeyNotFound
  | some keyId =>
    match env.getPublicKey keyId with
    | .ok pubk => .ok (env.publicKeyToEthAddress pubk)
    | .error r => .err r

end Ethereum

namespace Compound

/-- `<Compound as Chain>::zero_hash`: placeholder, panics. -/
def zero_hash : Outcome (List Nat) := .panicked notImplMsg

/-- `<Compound as Chain>::hash_bytes`: placeholder, panics. -/
def hash_bytes (_data : List Nat) : Outcome (List Nat) := .panicked notImplMsg

/-- `<Compound as Chain>::recover_address`: placeholder, panics. -/
def recover_address (_data _signature : List Nat) : Outcome (List Nat) :=
  .panicked notImplMsg

/-- `<Compound as Chain>::sign_message`: placeholder, panics. -/
def sign_message (_message : List Nat) : Outcome (List Nat) := .panicked notImplMsg

/-- `<Compound as Chain>::to_address`: placeholder, panics. -/
def to_address (_addr : List Char) : Outcome (List Nat) := .panicked notImplMsg

/-- `<Compound as Chain>::signer_address`: placeholder, panics. -/
def signer_address : Outcome (List Nat) := .panicked notImplMsg

end Compound

namespace Polkadot

/-- `<Polkadot as Chain>::zero_hash`: placeholder, panics. -/
def zero_hash : Outcome (List Nat) := .panicked notImplMsg

/-- `<Polkadot as Chain>::hash_bytes`: placeholder, panics. -/
def hash_bytes (_data : List Nat) : Outcome (List Nat) := .panicked notImplMsg

/-- `<Polkadot as Chain>::recover_address`: placeholder, panics. -/
def recover_address (_data _signature : List Nat) : Outcome (List Nat) :=
  .panicked notImplMsg

/-- `<Polkadot as Chain>::sign_message`: placeholder, panics. -/
def sign_message (_message : List Nat) : Outcome (List Nat) := .panicked notImplMsg

/-- `<Polkadot as Chain>::to_address`: placeholder, panics. -/
def to_address (_addr : List Char) : Outcome (List Nat) := .panicked notImplMsg

/-- `<Polkadot as Chain>::signer_address`: placeholder, panics. -/
def signer_address : Outcome (List Nat) := .panicked notImplMsg

end Polkadot

namespace Solana

/-- `<Solana as Chain>::zero_hash`: placeholder, panics. -/
def zero_hash : Outcome (List Nat) := .panicked notImplMsg

/-- `<Solana as Chain>::hash_bytes`: placeholder, panics. -/
def hash_bytes (_data : List Nat) : Outcome (List Nat) := .panicked notImplMsg

/-- `<Solana as Chain>::recover_address`: placeholder, panics. -/
def recover_address (_data _signature : List Nat) : Outcome (List Nat) :=
  .panicked notImplMsg

/-- `<Solana as Chain>::sign_message`: placeholder, panics. -/
def sign_message (_message : List Nat) : Outcome (List Nat) := .panicked notImplMsg

/-- `<Solana as Chain>::to_address`: placeholder, panics. -/
def to_address (_addr : List Char) : Outcome (List Nat) := .panicked notImplMsg

/-- `<Solana as Chain>::signer_address`: placeholder, panics. -/
def signer_address : Outcome (List Nat) := .panicked notImplMsg

end Solana

namespace Tezos

/-- `<Tezos as Chain>::zero_hash`: placeholder, panics. -/
def zero_hash : Outcome (List Nat) := .panicked notImplMsg

/-- `<Tezos as Chain>::hash_bytes`: placeholder, panics. -/
def hash_bytes (_data : List Nat) : Outcome (List Nat) := .panicked notImplMsg

/-- `<Tezos as Chain>::recover_address`: placeholder, panics. -/
def recover_address (_data _signature : List Nat) : Outcome (List Nat) :=
  .panicked notImplMsg

/-- `<Tezos as Chain>::sign_message`: placeholder, panics. -/
def sign_message (_message : List Nat) : Outcome (List Nat) := .panicked notImplMsg

/-- `<Tezos as Chain>::to_address`: placeholder, panics. -/
def to_address (_addr : List Char) : Outcome (List Nat) := .panicked notImplMsg

/-- `<Tezos as Chain>::signer_address`: placeholder, panics. -/
def signer_address : Outcome (List Nat) := .panicked notImplMsg

end Tezos

/- ### `impl ChainId`: dispatch over the five chains -/

/-- `ChainId::to_account`: dispatch to the chain's `to_address` and wrap
the result in the matching `ChainAccount` variant. -/
def ChainId.to_account : ChainId → List Char → Outcome ChainAccount
  | .Comp, addr => (Compound.to_address addr).bind (fun a => .ok (.Comp a))
  | .Eth, addr => (Ethereum.to_address addr).bind (fun a => .ok (.Eth a))
  | .Dot, addr => (Polkadot.to_address addr).bind (fun a => .ok (.Dot a))
  | .Sol, addr => (Solana.to_address addr).bind (fun a => .ok (.Sol a))
  | .Tez, addr => (Tezos.to_address addr).bind (fun a => .ok (.Tez a))

/-- `ChainId::to_asset`: dispatch to the chain's `to_address` and wrap the
result in the matching `ChainAsset` variant. -/
def ChainId.to_asset : ChainId → List Char → Outcome ChainAsset
  | .Comp, addr => (Compound.to_address addr).bind (fun a => .ok (.Comp a))
  | .Eth, addr => (Ethereum.to_address addr).bind (fun a => .ok (.Eth a))
  | .Dot, addr => (Polkadot.to_address addr).bind (fun a => .ok (.Dot a))
  | .Sol, addr => (Solana.to_address addr).bind (fun a => .ok (.Sol a))
  | .Tez, addr => (Tezos.to_address addr).bind (fun a => .ok (.Tez a))

/-- `ChainId::signer_address`: dispatch and wrap in a `ChainAccount`. -/
def ChainId.signer_address (env : Env) : ChainId → Outcome ChainAccount
  | .Comp => Compound.signer_address.bind (fun a => .ok (.Comp a))
  | .Eth => (Ethereum.signer_address env).bind (fun a => .ok (.Eth a))
  | .Dot => Polkadot.signer_address.bind (fun a => .ok (.Dot a))
  | .Sol => Solana.signer_address.bind (fun a => .ok (.Sol a))
  | .Tez => Tezos.signer_address.bind (fun a => .ok (.Tez a))

/-- `ChainId::hash_bytes`: dispatch and wrap in a `ChainHash`.  The Rust
signature returns a bare `ChainHash`; the placeholder arms panic, so the
outcome type records that abort. -/
def ChainId.hash_bytes (env : Env) : ChainId → List Nat → Outcome ChainHash
  | .Comp, data => (Compound.hash_bytes data).bind (fun h => .ok (.Comp h))
  | .Eth, data => .ok (.Eth (Ethereum.hash_bytes env data))
  | .Dot, data => (Polkadot.hash_bytes data).bind (fun h => .ok (.Dot h))
  | .Sol, data => (Solana.hash_bytes data).bind (fun h => .ok (.Sol h))
  | .Tez, data => (Tezos.hash_bytes data).bind (fun h => .ok (.Tez h))

/-- `ChainId::sign`: dispatch to the chain's `sign_message` and wrap in a
`ChainSignature`. -/
def ChainId.sign (env : Env) : ChainId → List Nat → Outcome ChainSignature
  | .Comp, message => (Compound.sign_message message).bind (fun s => .ok (.Comp s))
  | .Eth, message => (Ethereum.sign_message env message).bind (fun s => .ok (.Eth s))
  | .Dot, message => (Polkadot.sign_message message).bind (fun s => .ok (.Dot s))
  | .Sol, message => (Solana.sign_message message).bind (fun s => .ok (.Sol s))
  | .Tez, message => (Tezos.sign_message message).bind (fun s => .ok (.Tez s))

/-- `ChainId::zero_hash`: dispatch and wrap in a `ChainHash`. -/
def ChainId.zero_hash : ChainId → Outcome ChainHash
  | .Comp => Compound.zero_hash.bind (fun h => .ok (.Comp h))
  | .Eth => .ok (.Eth Ethereum.zero_hash)
  | .Dot => Polkadot.zero_hash.bind (fun h => .ok (.Dot h))
  | .Sol => Solana.zero_hash.bind (fun h => .ok (.Sol h))
  | .Tez => Tezos.zero_hash.bind (fun h => .ok (.Tez h))

/- ### Text codec -/

/-- `ChainId::from_str`: uppercase the tag (ASCII only) and match it
against the recognized set — only `"ETH"` and `"SOL"` are mapped;
everything else is `BadChainId`. -/
def ChainId.from_str (s : List Char) : Outcome ChainId :=
  let u := s.map asciiUpper
  if u = ['E', 'T', 'H'] then .ok .Eth
  else if u = ['S', 'O', 'L'] then .ok .Sol
  else .err .BadChainId

/-- `ChainAccount::from_str`: split once on the first `:`; the left part
names the chain, the right part is that chain's address text; no colon is
`BadAsset`. -/
def ChainAccount.from_str (string : List Char) : Outcome ChainAccount :=
  match splitOnce ':' string with
  | some (chainIdStr, addressStr) =>
    (ChainId.from_str chainIdStr).bind (fun chainId => chainId.to_account addressStr)
  | none => .err .BadAsset

/-- `impl From<ChainAccount> for String`: format an Ethereum account as
`"ETH:0x" ++ lowercase hex`; every other variant panics. -/
def ChainAccount.to_text : ChainAccount → Outcome (List Char)
  | .Eth address => .ok (['E', 'T', 'H', ':', '0', 'x'] ++ hexEncode address)
  | _ => .panicked notImplMsg

/-- `ChainAsset::from_str`: exactly like `ChainAccount::from_str` but
building an asset. -/
def ChainAsset.from_str (string : List Char) : Outcome ChainAsset :=
  match splitOnce ':' string with
  | some (chainIdStr, addressStr) =>
    (ChainId.from_str chainIdStr).bind (fun chainId => chainId.to_asset addressStr)
  | none => .err .BadAsset

/- ### Partial `chain_id` projections and signature verification -/

/-- `ChainAccount::chain_id`: only the `Eth` arm is implemented; every
other variant hits `panic!("XXX not implemented")`. -/
def ChainAccount.chain_id : ChainAccount → Outcome ChainId
  | .Eth _ => .ok .Eth
  | _ => .panicked notImplMsg

/-- `ChainAsset::chain_id`: only the `Eth` arm is implemented. -/
def ChainAsset.chain_id : ChainAsset → Outcome ChainId
  | .Eth _ => .ok .Eth
  | _ => .panicked notImplMsg

/-- `ChainSignature::chain_id`: only the `Eth` arm is implemented. -/
def ChainSignature.chain_id : ChainSignature → Outcome ChainId
  | .Eth _ => .ok .Eth
  | _ => .panicked notImplMsg

/-- `ChainAccountSignature::to_chain_signature`: drop the account half,
total over all variants. -/
def ChainAccountSignature.to_chain_signature : ChainAccountSignature → ChainSignature
  | .Comp _ sig => .Comp sig
  | .Eth _ sig => .Eth sig
  | .Dot _ sig => .Dot sig
  | .Sol _ sig => .Sol sig
  | .Tez _ sig => .Tez sig

/-- `ChainAccountSignature::recover_account`: for the Ethereum variant,
recover the signer from the message via `recover_address`, then compare
with the claimed account; equality yields the recovered account, a
difference yields `SignatureAccountMismatch`.  Every other variant panics. -/
def ChainAccountSignature.recover_account (env : Env) :
    ChainAccountSignature → List Nat → Outcome ChainAccount
  | .Eth ethAccount ethSig, message =>
    (Ethereum.recover_address env message ethSig).bind (fun recovered =>
      if ethAccount = recovered then .ok (.Eth recovered)
      else .err .SignatureAccountMismatch)
  | _, _ => .panicked notImplMsg

/-- `ChainSignature::recover`: recovery without a prior claim (Ethereum
only; other variants panic). -/
def ChainSignature.recover (env : Env) : ChainSignature → List Nat → Outcome ChainAccount
  | .Eth ethSig, message =>
    (Ethereum.recover_address env message ethSig).bind (fun a => .ok (.Eth a))
  | _, _ => .panicked notImplMsg

/-- A concrete environment used to evaluate the model on closed inputs:
every collaborator returns a fixed well-formed value. -/
def env0 : Env where
  keccak256 := fun _ => List.replicate 32 1
  getEthKeyId := some 0
  signOne := fun _ _ => .ok (List.replicate 65 0)
  getPublicKey := fun _ => .ok (List.replicate 64 0)
  publicKeyToEthAddress := fun _ => List.replicate 20 0
  ethRecover := fun _ _ _ => .ok (List.replicate 20 17)

/- ### Concrete inputs used to evaluate the model -/

/-- The scenario string `"xyz:0xabc"` with its unrecognized chain tag. -/
def xyzText : List Char := ['x', 'y', 'z', ':', '0', 'x', 'a', 'b', 'c']

/-- The scenario string `"eth:0x2222222222222222222222222222222222222222"`. -/
def eth22Text : List Char := ['e', 't', 'h', ':', '0', 'x'] ++ List.replicate 40 '2'

/-- A 42-byte string whose first character is the 3-byte `€` (U+20AC), so
byte index 2 falls inside it. -/
def badBoundaryText : List Char := Char.ofNat 8364 :: List.replicate 39 '1'

/-- A 42-byte string whose second character is the 3-byte `€` (U+20AC):
byte index 2 again falls inside a character. -/
def c4PanicText : List Char := '1' :: Char.ofNat 8364 :: List.replicate 38 '1'

/-- The validity condition the spec states for a textual Ethereum
address: exactly 42 characters, the literal prefix `0x`, and the
remaining 40 characters hexadecimal. -/
abbrev validEthAddrText (addr : List Char) : Prop :=
  addr.length = 42 ∧ addr.take 2 = ['0', 'x'] ∧ ∀ c ∈ addr.drop 2, (hexDigitVal c).isSome

/- ### Helper lemmas: bytes-and-characters arithmetic -/

/-- Unfolding `utf8Len` over a cons cell. -/
theorem utf8Len_cons (c : Char) (s : List Char) :
    utf8Len (c :: s) = rsize c + utf8Len s := by
  simp [utf8Len]

/-- A hex digit is an ASCII character. -/
theorem hexDigitVal_lt {c : Char} (h : (hexDigitVal c).isSome) : c.toNat < 128 := by
  unfold hexDigitVal at h
  split_ifs at h with h1 h2 h3
  · omega
  · omega
  · omega
  · simp at h

/-- ASCII characters occupy one UTF-8 byte. -/
theorem rsize_eq_one {c : Char} (h : c.toNat < 128) : rsize c = 1 := by
  simp [rsize, h]

/-- A string of one-byte characters has as many bytes as characters. -/
theorem utf8Len_eq_length {s : List Char} (h : ∀ c ∈ s, rsize c = 1) :
    utf8Len s = s.length := by
  induction s with
  | nil => rfl
  | cons c cs ih =>
    rw [utf8Len_cons, h c (by simp), ih (fun x hx => h x (by simp [hx]))]
    simp only [List.length_cons]
    omega

/-- `hexChar` inverts through `hexDigitVal` below 16. -/
theorem hexDigitVal_hexChar {n : Nat} (h : n < 16) :
    hexDigitVal (hexChar n) = some n := by
  interval_cases n <;> decide

/-- `hexChar` produces one-byte characters. -/
theorem rsize_hexChar {n : Nat} (h : n < 16) : rsize (hexChar n) = 1 := by
  interval_cases n <;> decide

/-- Decoding inverts encoding on genuine bytes. -/
theorem hexDecode_hexEncode (bs : List Nat) (h : ∀ b ∈ bs, b < 256) :
    hexDecode (hexEncode bs) = some bs := by
  induction bs with
  | nil => rfl
  | cons b bs ih =>
    have hb : b < 256 := h b (by simp)
    have h1 : b / 16 < 16 := by omega
    have h2 : b % 16 < 16 := by omega
    rw [hexEncode, hexDecode, hexDigitVal_hexChar h1, hexDigitVal_hexChar h2,
      ih (fun x hx => h x (by simp [hx]))]
    have hd : 16 * (b / 16) + b % 16 = b := by omega
    simp [hd]

/-- The hex encoding of a byte string is all ASCII, two bytes per byte. -/
theorem utf8Len_hexEncode (bs : List Nat) (h : ∀ b ∈ bs, b < 256) :
    utf8Len (hexEncode bs) = 2 * bs.length := by
  induction bs with
  | nil => rfl
  | cons b bs ih =>
    have hb : b < 256 := h b (by simp)
    rw [hexEncode, utf8Len_cons, utf8Len_cons, rsize_hexChar (show b / 16 < 16 by omega),
      rsize_hexChar (show b % 16 < 16 by omega), ih (fun x hx => h x (by simp [hx]))]
    simp
    omega

/-- Two-at-a-time induction over character lists, matching `hexDecode`. -/
theorem twoStepInduction {P : List Char → Prop} (h0 : P []) (h1 : ∀ c, P [c])
    (h2 : ∀ c1 c2 l, P l → P (c1 :: c2 :: l)) : ∀ l, P l
  | [] => h0
  | [c] => h1 c
  | c1 :: c2 :: l => h2 c1 c2 l (twoStepInduction h0 h1 h2 l)

/-- A successful decode certifies that the input was hex digits of even
length, half as many output bytes as input characters. -/
theorem hexDecode_some_hex {l : List Char} {bs : List Nat} (h : hexDecode l = some bs) :
    (∀ c ∈ l, (hexDigitVal c).isSome) ∧ 2 * bs.length = l.length := by
  induction l using twoStepInduction generalizing bs with
  | h0 =>
    simp [hexDecode] at h
    subst h
    simp
  | h1 c => simp [hexDecode] at h
  | h2 c1 c2 rest ih =>
    rw [hexDecode] at h
    cases hc1 : hexDigitVal c1 with
    | none => rw [hc1] at h; simp at h
    | some hi =>
      cases hc2 : hexDigitVal c2 with
      | none => rw [hc1, hc2] at h; simp at h
      | some lo =>
        cases hrest : hexDecode rest with
        | none => rw [hc1, hc2, hrest] at h; simp at h
        | some bs' =>
          rw [hc1, hc2, hrest] at h
          simp only [Option.some.injEq] at h
          subst h
          obtain ⟨hmem, hlen⟩ := ih hrest
          refine ⟨?_, by simp only [List.length_cons]; omega⟩
          intro c hc
          rw [List.mem_cons] at hc
          rcases hc with rfl | hc
          · simp [hc1]
          · rw [List.mem_cons] at hc
            rcases hc with rfl | hc
            · simp [hc2]
            · exact hmem c hc

/-- Hex digits of even length always decode, to half as many bytes. -/
theorem hexDecode_total {l : List Char} (hhex : ∀ c ∈ l, (hexDigitVal c).isSome)
    (heven : l.length % 2 = 0) :
    ∃ bs, hexDecode l = some bs ∧ 2 * bs.length = l.length := by
  induction l using twoStepInduction with
  | h0 => exact ⟨[], rfl, rfl⟩
  | h1 c => simp at heven
  | h2 c1 c2 rest ih =>
    obtain ⟨hi, hc1⟩ := Option.isSome_iff_exists.mp (hhex c1 (by simp))
    obtain ⟨lo, hc2⟩ := Option.isSome_iff_exists.mp (hhex c2 (by simp))
    obtain ⟨bs, hbs, hlen⟩ := ih (fun c hc => hhex c (by simp [hc]))
      (by simp only [List.length_cons] at heven; omega)
    refine ⟨(16 * hi + lo) :: bs, ?_, by simp only [List.length_cons]; omega⟩
    rw [hexDecode, hc1, hc2, hbs]

/- ### Slicing lemmas -/

/-- Slicing zero bytes always yields the empty prefix. -/
theorem sliceTo_zero (s : List Char) : sliceTo 0 s = some [] := by
  cases s <;> rfl

/-- The two-byte slice of a string starting with the ASCII characters
`0x` is exactly `"0x"`. -/
theorem sliceTo_two_0x (rest : List Char) :
    sliceTo 2 ('0' :: 'x' :: rest) = some ['0', 'x'] := by
  have h0 : rsize '0' = 1 := by decide
  have hx : rsize 'x' = 1 := by decide
  simp [sliceTo, h0, hx, sliceTo_zero]

/-- A successful byte-slice is a prefix of the string covering exactly
the requested number of bytes. -/
theorem sliceTo_some_decomp :
    ∀ (n : Nat) (s p : List Char), sliceTo n s = some p →
      ∃ t, s = p ++ t ∧ utf8Len p = n := by
  intro n s
  induction s generalizing n with
  | nil =>
    intro p h
    cases n with
    | zero =>
      simp [sliceTo] at h
      subst h
      exact ⟨[], rfl, rfl⟩
    | succ m => simp [sliceTo] at h
  | cons c cs ih =>
    intro p h
    cases n with
    | zero =>
      simp [sliceTo] at h
      subst h
      exact ⟨c :: cs, rfl, rfl⟩
    | succ m =>
      rw [sliceTo] at h
      by_cases hc : rsize c ≤ m + 1
      · rw [if_pos hc] at h
        obtain ⟨p', hp', rfl⟩ := Option.map_eq_some'.mp h
        obtain ⟨t, hcs, hlen⟩ := ih (m + 1 - rsize c) p' hp'
        refine ⟨t, by rw [hcs]; rfl, ?_⟩
        rw [utf8Len_cons, hlen]
        omega
      · rw [if_neg hc] at h
        simp at h

/- ### `Ethereum::to_address` characterization -/

/-- A string whose first two characters are `0x` decomposes. -/
theorem take_two_shape {addr : List Char} (h : addr.take 2 = ['0', 'x']) :
    ∃ rest, addr = '0' :: 'x' :: rest := by
  match addr with
  | [] => simp at h
  | [c] => simp at h
  | c1 :: c2 :: rest =>
    simp [List.take] at h
    obtain ⟨rfl, rfl⟩ := h
    exact ⟨rest, rfl⟩

/-- Success of `to_address` certifies validity and pins the value to the
hex decoding of the last 40 characters. -/
theorem to_address_ok_valid {addr : List Char} {bytes : List Nat}
    (h : Ethereum.to_address addr = .ok bytes) :
    validEthAddrText addr ∧ bytes.length = 20 ∧ hexDecode (addr.drop 2) = some bytes := by
  unfold Ethereum.to_address at h
  by_cases hlen : utf8Len addr = 42
  · rw [if_pos hlen] at h
    cases hslice : sliceTo 2 addr with
    | none => rw [hslice] at h; simp only [] at h; simp at h
    | some pre =>
      rw [hslice] at h
      simp only [] at h
      by_cases hpre : pre = ['0', 'x']
      · rw [if_pos hpre] at h
        cases hdec : hexDecode (addr.drop 2) with
        | none => rw [hdec] at h; simp only [] at h; simp at h
        | some bs =>
          rw [hdec] at h
          simp only [] at h
          by_cases hbs : bs.length = 20
          · rw [if_pos hbs] at h
            injection h with h
            subst h
            subst hpre
            obtain ⟨t, hdecomp, _⟩ := sliceTo_some_decomp 2 addr _ hslice
            subst hdecomp
            obtain ⟨hmem, hlen2⟩ := hexDecode_some_hex hdec
            have hlen2' : 2 * bs.length = t.length := hlen2
            refine ⟨⟨?_, rfl, hmem⟩, hbs, rfl⟩
            simp only [List.cons_append, List.nil_append, List.length_cons]
            omega
          · rw [if_neg hbs] at h; simp at h
      · rw [if_neg hpre] at h; simp at h
  · rw [if_neg hlen] at h; simp at h

/-- Validity forces `to_address` to succeed. -/
theorem to_address_valid_ok {addr : List Char} (h : validEthAddrText addr) :
    ∃ bytes, Ethereum.to_address addr = .ok bytes := by
  obtain ⟨hlen, htake, hhex⟩ := h
  obtain ⟨rest, rfl⟩ := take_two_shape htake
  have hrlen : rest.length = 40 := by simpa using hlen
  have hhex' : ∀ c ∈ rest, (hexDigitVal c).isSome := by
    intro c hc
    exact hhex c (by simpa using hc)
  have hrs : ∀ c ∈ rest, rsize c = 1 :=
    fun c hc => rsize_eq_one (hexDigitVal_lt (hhex' c hc))
  have hulen : utf8Len ('0' :: 'x' :: rest) = 42 := by
    rw [utf8Len_cons, utf8Len_cons, utf8Len_eq_length hrs, hrlen]
    decide
  obtain ⟨bs, hbs, hbslen⟩ := hexDecode_total hhex' (by omega)
  refine ⟨bs, ?_⟩
  unfold Ethereum.to_address
  rw [if_pos hulen, sliceTo_two_0x]
  simp only []
  rw [if_pos trivial]
  simp only [List.drop_succ_cons, List.drop_zero]
  rw [hbs]
  simp only []
  rw [if_pos (by omega)]

/-- The only typed error `to_address` produces is `BadAddress`. -/
theorem to_address_err_reason {addr : List Char} {r : Reason}
    (h : Ethereum.to_address addr = .err r) : r = .BadAddress := by
  unfold Ethereum.to_address at h
  by_cases hlen : utf8Len addr = 42
  · rw [if_pos hlen] at h
    cases hslice : sliceTo 2 addr with
    | none => rw [hslice] at h; simp only [] at h; simp at h
    | some pre =>
      rw [hslice] at h
      simp only [] at h
      by_cases hpre : pre = ['0', 'x']
      · rw [if_pos hpre] at h
        cases hdec : hexDecode (addr.drop 2) with
        | none =>
          rw [hdec] at h
          simp only [] at h
          injection h with h
          exact h.symm
        | some bs =>
          rw [hdec] at h
          simp only [] at h
          by_cases hbs : bs.length = 20
          · rw [if_pos hbs] at h; simp at h
          · rw [if_neg hbs] at h; injection h with h; exact h.symm
      · rw [if_neg hpre] at h; injection h with h; exact h.symm
  · rw [if_neg hlen] at h; injection h with h; exact h.symm

/-- `to_address` panics exactly when the length check passes but byte
index 2 is not a character boundary. -/
theorem to_address_panic_cond {addr : List Char} {m : String}
    (h : Ethereum.to_address addr = .panicked m) :
    utf8Len addr = 42 ∧ sliceTo 2 addr = none := by
  unfold Ethereum.to_address at h
  by_cases hlen : utf8Len addr = 42
  · rw [if_pos hlen] at h
    cases hslice : sliceTo 2 addr with
    | none => exact ⟨hlen, rfl⟩
    | some pre =>
      rw [hslice] at h
      simp only [] at h
      by_cases hpre : pre = ['0', 'x']
      · rw [if_pos hpre] at h
        cases hdec : hexDecode (addr.drop 2) with
        | none => rw [hdec] at h; simp only [] at h; simp at h
        | some bs =>
          rw [hdec] at h
          simp only [] at h
          by_cases hbs : bs.length = 20
          · rw [if_pos hbs] at h; simp at h
          · rw [if_neg hbs] at h; simp at h
      · rw [if_neg hpre] at h; simp at h
  · rw [if_neg hlen] at h; simp at h

/-- Away from validity and from the boundary-panic condition,
`to_address` fails with `BadAddress`. -/
theorem to_address_not_ok_err {addr : List Char}
    (hnv : ¬ validEthAddrText addr)
    (hnp : ¬ (utf8Len addr = 42 ∧ sliceTo 2 addr = none)) :
    Ethereum.to_address addr = .err .BadAddress := by
  cases ha : Ethereum.to_address addr with
  | ok bytes => exact absurd (to_address_ok_valid ha).1 hnv
  | err r => rw [to_address_err_reason ha]
  | panicked m => exact absurd (to_address_panic_cond ha) hnp

/- ### Claim theorems -/

/-- C2: the claim says an operation dispatched to a placeholder chain —
for example `hash_bytes` with `ChainId::Dot` — fails with a typed
UnsupportedChain/UnsupportedOperation error and never aborts.  The code
instead panics (`panic!("XXX not implemented")`), aborting the process:
evaluated at `ChainId::Dot.hash_bytes(&[])`, the outcome is the panic and
not a typed error. -/
theorem C2_placeholder_hash_aborts :
    ChainId.hash_bytes env0 .Dot [] = .panicked notImplMsg ∧
    ChainId.hash_bytes env0 .Dot [] ≠ .err .UnsupportedOperation ∧
    ChainId.hash_bytes env0 .Dot [] ≠ .err .UnsupportedChain := by decide

/-- C5: the claim says `chain_id()` on `ChainAccount`/`ChainAsset`/
`ChainSignature` is total, mapping every variant to its own tag.  In the
code only the `Eth` arm is implemented; every other variant panics, as
the evaluation of the `Comp`, `Dot` and `Tez` variants shows. -/
theorem C5_chain_id_partial :
    (ChainAccount.Eth (List.replicate 20 0)).chain_id = .ok .Eth ∧
    (ChainAccount.Comp (List.replicate 20 0)).chain_id = .panicked notImplMsg ∧
    (ChainAsset.Dot (List.replicate 20 0)).chain_id = .panicked notImplMsg ∧
    (ChainSignature.Tez (List.replicate 65 0)).chain_id = .panicked notImplMsg := by decide

/-- C8: parsing `"eth:0x2222…22"` succeeds with the Ethereum-tagged
account holding twenty `0x22` bytes; the lowercase tag `eth` matches
case-insensitively. -/
theorem C8_parse_eth22 :
    ChainAccount.from_str eth22Text = .ok (.Eth (List.replicate 20 34)) := by decide

/-- C3 (counterexample to the claim as stated): the claim says every
string that is not a valid address fails with `BadAddress`; but the
42-byte string starting with the three-byte character `€` makes the
prefix slice `&addr[0..2]` panic instead. -/
theorem C3_counterexample :
    Ethereum.to_address badBoundaryText = .panicked "byte index 2 is not a char boundary" ∧
    Ethereum.to_address badBoundaryText ≠ .err .BadAddress := by decide

/-- C3 (amended): `to_address` succeeds exactly on valid addresses
(42 characters, `0x` prefix, 40 hex digits), returning the 20 decoded
bytes; every other string fails with `BadAddress` unless it has UTF-8
length 42 with byte index 2 inside a multi-byte character, in which case
the code panics; the 43-character string `0x` + 41 `'1'`s fails with
`BadAddress`. -/
theorem C3_to_address_characterization (addr : List Char) :
    ((∃ bytes, Ethereum.to_address addr = .ok bytes) ↔ validEthAddrText addr) ∧
    (∀ bytes, Ethereum.to_address addr = .ok bytes →
      bytes.length = 20 ∧ hexDecode (addr.drop 2) = some bytes) ∧
    (¬ validEthAddrText addr → ¬ (utf8Len addr = 42 ∧ sliceTo 2 addr = none) →
      Ethereum.to_address addr = .err .BadAddress) ∧
    Ethereum.to_address (['0', 'x'] ++ List.replicate 41 '1') = .err .BadAddress := by
  refine ⟨⟨?_, to_address_valid_ok⟩, ?_, to_address_not_ok_err, by decide⟩
  · rintro ⟨bytes, h⟩
    exact (to_address_ok_valid h).1
  · intro bytes h
    exact (to_address_ok_valid h).2

/-- C3 witness: the two-character string `"0x"` is invalid, does not hit
the panic condition, and indeed fails with `BadAddress`. -/
theorem C3_witness : Ethereum.to_address ['0', 'x'] = .err .BadAddress :=
  (C3_to_address_characterization ['0', 'x']).2.2.1 (by decide) (by decide)

/-- C4: the claim says every malformed address string — including ones
with multi-byte characters — fails with `BadAddress` and never panics.
The 42-byte string `'1'` followed by `€` puts byte index 2 inside the
`€`, and the slice `&addr[0..2]` panics. -/
theorem C4_multibyte_panics :
    Ethereum.to_address c4PanicText = .panicked "byte index 2 is not a char boundary" ∧
    Ethereum.to_address c4PanicText ≠ .err .BadAddress := by decide

/-- C6: any chain-tag string whose ASCII uppercasing is neither `"ETH"`
nor `"SOL"` fails with `BadChainId`; in particular `"xyz:0xabc"` fails
with `BadChainId` both as a `ChainAccount` and as a `ChainAsset`. -/
theorem C6_unrecognized_tag (s : List Char)
    (h1 : s.map asciiUpper ≠ ['E', 'T', 'H'])
    (h2 : s.map asciiUpper ≠ ['S', 'O', 'L']) :
    ChainId.from_str s = .err .BadChainId ∧
    ChainAccount.from_str xyzText = .err .BadChainId ∧
    ChainAsset.from_str xyzText = .err .BadChainId := by
  refine ⟨?_, by decide, by decide⟩
  simp only [ChainId.from_str]
  rw [if_neg h1, if_neg h2]

/-- C6 witness: the tag `"xyz"` is outside the recognized set and fails
with `BadChainId`. -/
theorem C6_witness : ChainId.from_str ['x', 'y', 'z'] = .err .BadChainId :=
  (C6_unrecognized_tag ['x', 'y', 'z'] (by decide) (by decide)).1

/-- C10: `ChainId::from_str` recognizes only `"ETH"` and `"SOL"` up to
ASCII case: every successful parse is one of those two, the enumerated
tags `"COMP"`, `"DOT"`, `"TEZ"` fail with `BadChainId` in any casing, and
`"comp:…"`, `"dot:…"`, `"tez:…"` strings never parse into accounts or
assets. -/
theorem C10_only_eth_sol :
    (∀ s c, ChainId.from_str s = .ok c →
      (s.map asciiUpper = ['E', 'T', 'H'] ∧ c = .Eth) ∨
      (s.map asciiUpper = ['S', 'O', 'L'] ∧ c = .Sol)) ∧
    (∀ s, s.map asciiUpper = ['C', 'O', 'M', 'P'] ∨ s.map asciiUpper = ['D', 'O', 'T'] ∨
      s.map asciiUpper = ['T', 'E', 'Z'] → ChainId.from_str s = .err .BadChainId) ∧
    (∀ addr, ChainAccount.from_str (['c', 'o', 'm', 'p', ':'] ++ addr) = .err .BadChainId ∧
      ChainAccount.from_str (['d', 'o', 't', ':'] ++ addr) = .err .BadChainId ∧
      ChainAccount.from_str (['t', 'e', 'z', ':'] ++ addr) = .err .BadChainId ∧
      ChainAsset.from_str (['c', 'o', 'm', 'p', ':'] ++ addr) = .err .BadChainId ∧
      ChainAsset.from_str (['d', 'o', 't', ':'] ++ addr) = .err .BadChainId ∧
      ChainAsset.from_str (['t', 'e', 'z', ':'] ++ addr) = .err .BadChainId) := by
  refine ⟨?_, ?_, ?_⟩
  · intro s c h
    simp only [ChainId.from_str] at h
    by_cases he : s.map asciiUpper = ['E', 'T', 'H']
    · rw [if_pos he] at h
      injection h with h
      exact Or.inl ⟨he, h.symm⟩
    · rw [if_neg he] at h
      by_cases hs : s.map asciiUpper = ['S', 'O', 'L']
      · rw [if_pos hs] at h
        injection h with h
        exact Or.inr ⟨hs, h.symm⟩
      · rw [if_neg hs] at h
        simp at h
  · intro s hs
    simp only [ChainId.from_str]
    rcases hs with hs | hs | hs <;> rw [hs] <;> decide
  · intro addr
    refine ⟨?_, ?_, ?_, ?_, ?_, ?_⟩ <;>
      simp [ChainAccount.from_str, ChainAsset.from_str, splitOnce, ChainId.from_str,
        asciiUpper, Outcome.bind]

/-- C10 witness: the lowercase tag `"comp"` fails with `BadChainId`. -/
theorem C10_witness : ChainId.from_str ['c', 'o', 'm', 'p'] = .err .BadChainId :=
  C10_only_eth_sol.2.1 ['c', 'o', 'm', 'p'] (Or.inl (by decide))

/-- C1: for a signature whose recovery over `message` yields `X`, the
Ethereum `recover_account` succeeds with `ChainAccount::Eth(X)` exactly
when the claimed account equals `X`, and otherwise fails with
`SignatureAccountMismatch`. -/
theorem C1_recover_account_check (env : Env) (m s X Y : List Nat)
    (h : env.ethRecover m s true = .ok X) :
    ((ChainAccountSignature.Eth Y s).recover_account env m = .ok (.Eth X) ↔ Y = X) ∧
    (Y ≠ X → (ChainAccountSignature.Eth Y s).recover_account env m
      = .err .SignatureAccountMismatch) := by
  have hr : Ethereum.recover_address env m s = .ok X := by
    unfold Ethereum.recover_address
    rw [h]
  have hra : (ChainAccountSignature.Eth Y s).recover_account env m
      = if Y = X then .ok (.Eth X) else .err .SignatureAccountMismatch := by
    unfold ChainAccountSignature.recover_account
    simp only []
    rw [hr]
    simp only [Outcome.bind]
  rw [hra]
  constructor
  · constructor
    · intro hok
      by_cases hyx : Y = X
      · exact hyx
      · rw [if_neg hyx] at hok
        simp at hok
    · intro hyx
      rw [if_pos hyx]
  · intro hyx
    rw [if_neg hyx]

/-- C1 witness: with a recovery primitive returning the 20-byte address
of all `0x11` bytes, a matching claim verifies and a differing claim is
rejected with `SignatureAccountMismatch`. -/
theorem C1_witness :
    (ChainAccountSignature.Eth (List.replicate 20 17) (List.replicate 65 0)).recover_account
      env0 [] = .ok (.Eth (List.replicate 20 17)) ∧
    (ChainAccountSignature.Eth (List.replicate 20 3) (List.replicate 65 0)).recover_account
      env0 [] = .err .SignatureAccountMismatch :=
  ⟨(C1_recover_account_check env0 [] (List.replicate 65 0) (List.replicate 20 17)
      (List.replicate 20 17) rfl).1.mpr rfl,
   (C1_recover_account_check env0 [] (List.replicate 65 0) (List.replicate 20 17)
      (List.replicate 20 3) rfl).2 (by decide)⟩

/-- C7: formatting an Ethereum `ChainAccount` as `"ETH:0x" ++ hex` and
parsing it back yields the original account. -/
theorem C7_round_trip (a : List Nat) (hlen : a.length = 20)
    (hbytes : ∀ b ∈ a, b < 256) :
    Outcome.bind (ChainAccount.Eth a).to_text ChainAccount.from_str
      = .ok (.Eth a) := by
  have hsplit : splitOnce ':' ('E' :: 'T' :: 'H' :: ':' :: '0' :: 'x' :: hexEncode a)
      = some (['E', 'T', 'H'], '0' :: 'x' :: hexEncode a) := by
    simp [splitOnce]
  have hfs : ChainId.from_str ['E', 'T', 'H'] = .ok .Eth := by decide
  have haddr : Ethereum.to_address ('0' :: 'x' :: hexEncode a) = .ok a := by
    have hu : utf8Len ('0' :: 'x' :: hexEncode a) = 42 := by
      rw [utf8Len_cons, utf8Len_cons, utf8Len_hexEncode a hbytes, hlen]
      decide
    unfold Ethereum.to_address
    rw [if_pos hu, sliceTo_two_0x]
    simp only []
    rw [if_pos trivial]
    simp only [List.drop_succ_cons, List.drop_zero]
    rw [hexDecode_hexEncode a hbytes]
    simp only []
    rw [if_pos hlen]
  show ChainAccount.from_str (['E', 'T', 'H', ':', '0', 'x'] ++ hexEncode a)
      = .ok (.Eth a)
  simp [ChainAccount.from_str, hsplit, hfs, Outcome.bind, ChainId.to_account, haddr]

/-- C7 witness: the account of twenty `0xab` bytes round-trips. -/
theorem C7_witness :
    Outcome.bind (ChainAccount.Eth (List.replicate 20 171)).to_text ChainAccount.from_str
      = .ok (.Eth (List.replicate 20 171)) :=
  C7_round_trip (List.replicate 20 171) (by decide) (by decide)

/-- Inversion for the `?`-style bind: a successful bind came from a
successful first step. -/
theorem bind_ok_elim {T U : Type} {x : Outcome T} {f : T → Outcome U} {v : U}
    (h : Outcome.bind x f = .ok v) : ∃ a, x = .ok a ∧ f a = .ok v := by
  cases x with
  | ok a => exact ⟨a, rfl, h⟩
  | err r => simp [Outcome.bind] at h
  | panicked m => simp [Outcome.bind] at h

/-- A successful `to_account` carries the dispatching chain's tag. -/
theorem to_account_tag {c : ChainId} {addr : List Char} {v : ChainAccount}
    (h : c.to_account addr = .ok v) : v.tag = c := by
  cases c
  case Eth =>
    simp only [ChainId.to_account] at h
    obtain ⟨a, _, hf⟩ := bind_ok_elim h
    injection hf with hf
    subst hf
    rfl
  all_goals
    simp only [ChainId.to_account] at h
    obtain ⟨a, ha, _⟩ := bind_ok_elim h
    simp [Compound.to_address, Polkadot.to_address, Solana.to_address,
      Tezos.to_address] at ha

/-- A successful `to_asset` carries the dispatching chain's tag. -/
theorem to_asset_tag {c : ChainId} {addr : List Char} {v : ChainAsset}
    (h : c.to_asset addr = .ok v) : v.tag = c := by
  cases c
  case Eth =>
    simp only [ChainId.to_asset] at h
    obtain ⟨a, _, hf⟩ := bind_ok_elim h
    injection hf with hf
    subst hf
    rfl
  all_goals
    simp only [ChainId.to_asset] at h
    obtain ⟨a, ha, _⟩ := bind_ok_elim h
    simp [Compound.to_address, Polkadot.to_address, Solana.to_address,
      Tezos.to_address] at ha

/-- A successful `signer_address` carries the dispatching chain's tag. -/
theorem signer_address_tag {env : Env} {c : ChainId} {v : ChainAccount}
    (h : c.signer_address env = .ok v) : v.tag = c := by
  cases c
  case Eth =>
    simp only [ChainId.signer_address] at h
    obtain ⟨a, _, hf⟩ := bind_ok_elim h
    injection hf with hf
    subst hf
    rfl
  all_goals
    simp only [ChainId.signer_address] at h
    obtain ⟨a, ha, _⟩ := bind_ok_elim h
    simp [Compound.signer_address, Polkadot.signer_address, Solana.signer_address,
      Tezos.signer_address] at ha

/-- A successful `hash_bytes` carries the dispatching chain's tag. -/
theorem hash_bytes_tag {env : Env} {c : ChainId} {data : List Nat} {v : ChainHash}
    (h : c.hash_bytes env data = .ok v) : v.tag = c := by
  cases c
  case Eth =>
    simp only [ChainId.hash_bytes] at h
    injection h with h
    subst h
    rfl
  all_goals
    simp only [ChainId.hash_bytes] at h
    obtain ⟨a, ha, _⟩ := bind_ok_elim h
    simp [Compound.hash_bytes, Polkadot.hash_bytes, Solana.hash_bytes,
      Tezos.hash_bytes] at ha

/-- A successful `sign` carries the dispatching chain's tag. -/
theorem sign_tag {env : Env} {c : ChainId} {message : List Nat} {v : ChainSignature}
    (h : c.sign env message = .ok v) : v.tag = c := by
  cases c
  case Eth =>
    simp only [ChainId.sign] at h
    obtain ⟨a, _, hf⟩ := bind_ok_elim h
    injection hf with hf
    subst hf
    rfl
  all_goals
    simp only [ChainId.sign] at h
    obtain ⟨a, ha, _⟩ := bind_ok_elim h
    simp [Compound.sign_message, Polkadot.sign_message, Solana.sign_message,
      Tezos.sign_message] at ha

/-- A successful `zero_hash` carries the dispatching chain's tag. -/
theorem zero_hash_tag {c : ChainId} {v : ChainHash}
    (h : c.zero_hash = .ok v) : v.tag = c := by
  cases c
  case Eth =>
    simp only [ChainId.zero_hash] at h
    injection h with h
    subst h
    rfl
  all_goals
    simp only [ChainId.zero_hash] at h
    obtain ⟨a, ha, _⟩ := bind_ok_elim h
    simp [Compound.zero_hash, Polkadot.zero_hash, Solana.zero_hash,
      Tezos.zero_hash] at ha

/-- C9: every successful result of the six `ChainId` dispatch operations
is tagged with the chain that was dispatched on. -/
theorem C9_tag_agreement (env : Env) (c : ChainId) (addr : List Char)
    (data message : List Nat) :
    (∀ v, c.to_account addr = .ok v → v.tag = c) ∧
    (∀ v, c.to_asset addr = .ok v → v.tag = c) ∧
    (∀ v, c.signer_address env = .ok v → v.tag = c) ∧
    (∀ v, c.hash_bytes env data = .ok v → v.tag = c) ∧
    (∀ v, c.sign env message = .ok v → v.tag = c) ∧
    (∀ v, c.zero_hash = .ok v → v.tag = c) :=
  ⟨fun _ h => to_account_tag h, fun _ h => to_asset_tag h,
   fun _ h => signer_address_tag h, fun _ h => hash_bytes_tag h,
   fun _ h => sign_tag h, fun _ h => zero_hash_tag h⟩

/-- C9 witness: hashing with the Ethereum chain yields an `Eth`-tagged
hash. -/
theorem C9_witness : (ChainHash.Eth (List.replicate 32 1)).tag = ChainId.Eth :=
  (C9_tag_agreement env0 .Eth [] [] []).2.2.2.1 (ChainHash.Eth (List.replicate 32 1))
    (by decide)
